import Mathlib

/-!
Verification development for the callingbuddy telephony relay
(`src/main.py`, `src/database/supabase_client.py`).

The definitions below are a shallow embedding of the Python source:

* the transcript dedup-and-join performed at the end of
  `handle_media_stream` (main.py lines 873-881),
* the tail of `handle_media_stream` after `asyncio.wait` (lines 819-963),
* the `receive_from_twilio` and `send_to_twilio` read loops,
* `send_session_update` (lines 965-980),
* the persistence collaborator (`supabase_client.py`) and the
  `GET /calls/.../transcription` endpoint.

Each claim theorem carries its claim id in the doc comment.
-/

set_option linter.unusedVariables false
set_option maxRecDepth 8192

namespace CallingBuddy

/-! ### Transcript dedup and join (main.py lines 873-881)

Python:
```
seen = set()
unique_transcription = []
for item in final_transcription:
    if item not in seen:
        seen.add(item)
        unique_transcription.append(item)
transcription_text = "\n".join(unique_transcription)
```
`dedupStep` is one iteration of the loop, the pair holding
(`seen`, `unique_transcription`); `seen` is a Python set, modelled as a
list queried by membership. -/

def dedupStep (p : List String × List String) (item : String) :
    List String × List String :=
  if item ∈ p.1 then p else (p.1 ++ [item], p.2 ++ [item])

def removeDuplicates (l : List String) : List String :=
  (l.foldl dedupStep ([], [])).2

/-- Embedding of Python `"\n".join(lines)`. -/
def joinLines : List String → String
  | [] => ""
  | [x] => x
  | x :: xs => x ++ ("\n" ++ joinLines xs)

/-- The finalize step of the relay: dedup then newline-join. -/
def finalizeTranscript (l : List String) : String :=
  joinLines (removeDuplicates l)

/-- Spec-side description of the dedup ("the duplicate-free subsequence of
first occurrences of the input"): keep the head, drop all later copies of
it, recurse. Used only to be compared with `removeDuplicates`, which is
taken from the source. -/
def firstOccs : List String → List String
  | [] => []
  | a :: as => a :: firstOccs (as.filter (fun b => decide (b ≠ a)))
termination_by l => l.length
decreasing_by
  simp only [List.length_cons]
  exact Nat.lt_succ_of_le (List.length_filter_le _ _)

/-! ### Merging the two transcription sources (main.py lines 838-871)

`full_transcription` is filled by the realtime-event loop, the global
`transcription_service.buffer` by the Whisper batch path.  Python:
```
final_transcription = []
if full_transcription: final_transcription.extend(full_transcription)
if transcription_service.buffer:
    ... (possible final continuous re-transcription, below) ...
    if len(buffer) == 1 and buffer[0].startswith("User:"):
        final_transcription = [buffer[0]] + final_transcription
    else:
        final_transcription.extend(buffer)
```
-/

/-- Executable embedding of Python `s.startswith(pre)`: the characters of
`pre` are an initial segment of the characters of `s`. -/
def pyStartsWith (s pre : String) : Bool :=
  pre.data.isPrefixOf s.data

def mergeTranscription (fullT buf : List String) : List String :=
  if buf = [] then fullT
  else if buf.length = 1 ∧ pyStartsWith (buf.headD "") "User:" then
    buf ++ fullT
  else fullT ++ buf

/-- Buffer replacement done by `_transcribe_audio(..., is_continuous=True)`
(main.py lines 510-515): on a successful continuous transcription whose
stripped text is non-empty, the buffer is replaced by the single
consolidated line; otherwise it is left unchanged.  `none` models a failed
or absent transcription result. -/
def bufferAfterFinal (buf : List String) (continuousResult : Option String) :
    List String :=
  match continuousResult with
  | some t => if t.trim ≠ "" then ["User: " ++ t.trim] else buf
  | none => buf

/-- The transcription-service buffer at merge time: the final continuous
re-transcription (main.py lines 849-859) runs only when the buffer is
non-empty and enough continuous audio accumulated. -/
def bufferAtMerge (buf : List String) (enoughContinuousAudio : Bool)
    (continuousResult : Option String) : List String :=
  if buf ≠ [] ∧ enoughContinuousAudio then
    bufferAfterFinal buf continuousResult
  else buf

/-- Fallback file name (main.py lines 899-901):
`filename = f"transcription_\x7btimestamp\x7d.txt"`. -/
def fallbackFilename (ts : String) : String :=
  "transcription_" ++ ts ++ ".txt"

/-! ### The tail of `handle_media_stream` (main.py lines 819-963)

After `asyncio.wait(..., return_when=FIRST_COMPLETED)` returns — whichever
loop finished first, and however it finished — the handler cancels the
pending task, and if `full_transcription or transcription_service.buffer`
is truthy it merges, dedups, joins, writes the local fallback file, and
(only when Supabase is available and a call record was resolved) persists
the transcription and marks the call completed; finally it closes the
upstream socket.  The trace below records those effects in program
order. -/

inductive WhichLoop where
  | downstream
  | upstream
deriving DecidableEq

inductive LoopExitCause where
  | clean
  | disconnect
  | exceptionRaised
deriving DecidableEq

inductive TailAction where
  | cancelPending
  | finalizeDedupJoin (text : String)
  | writeFallback (filename : String) (content : String)
  | persistTranscription (call_id : String) (content : String)
  | updateCallCompleted (call_id : String)
  | closeUpstream
deriving DecidableEq

def isFinalizeStep : TailAction → Bool
  | .finalizeDedupJoin _ => true
  | _ => false

def isWriteFallback : TailAction → Bool
  | .writeFallback _ _ => true
  | _ => false

def finalizeCount (tr : List TailAction) : Nat :=
  (tr.filter isFinalizeStep).length

def handleMediaStreamTail (firstExited : WhichLoop) (cause : LoopExitCause)
    (fullT buf : List String) (enoughContinuousAudio : Bool)
    (continuousResult : Option String) (supabaseAvail : Bool)
    (resolvedCallId : Option String) (ts : String) : List TailAction :=
  if fullT ≠ [] ∨ buf ≠ [] then
    let buf2 := bufferAtMerge buf enoughContinuousAudio continuousResult
    let text := finalizeTranscript (mergeTranscription fullT buf2)
    let dbActions :=
      if supabaseAvail then
        match resolvedCallId with
        | some cid =>
            [TailAction.persistTranscription cid text,
              TailAction.updateCallCompleted cid]
        | none => []
      else []
    TailAction.cancelPending ::
      (TailAction.finalizeDedupJoin text ::
        TailAction.writeFallback (fallbackFilename ts) text ::
          (dbActions ++ [TailAction.closeUpstream]))
  else [TailAction.cancelPending, TailAction.closeUpstream]

/-! ### The downstream read loop `receive_from_twilio` (main.py lines 706-762)

Each websocket text frame is fed to `json.loads`; `media` events forward
the payload to the upstream socket (when it is open), `start` events set
`stream_sid` and, when a `callSid` is present, extend the
`stream_sid_to_call_sid` mapping.  A frame whose payload is not valid
JSON makes `json.loads` raise; the `try` surrounding the whole
`async for` catches it, so the loop exits and the `finally` block marks
the websocket closed.  A malformed frame is modelled as `none`. -/

inductive TwilioEvent where
  | media (payload : String)
  | start (streamSid : String) (callSid : Option String)
  | other (name : String)
deriving DecidableEq

structure TwilioLoopState where
  streamSid : Option String
  streamToCall : List (String × String)
  forwarded : List String
  websocketClosed : Bool
deriving DecidableEq

def initTwilioLoopState : TwilioLoopState :=
  { streamSid := none, streamToCall := [], forwarded := [],
    websocketClosed := false }

def processTwilioEvent (openaiOpen : Bool) (st : TwilioLoopState) :
    TwilioEvent → TwilioLoopState
  | .media p =>
      if openaiOpen then { st with forwarded := st.forwarded ++ [p] }
      else st
  | .start sid callSid =>
      let st1 := { st with streamSid := some sid }
      match callSid with
      | some c => { st1 with streamToCall := st1.streamToCall ++ [(sid, c)] }
      | none => st1
  | .other _ => st

/-- The `finally` block of `receive_from_twilio`: the loop always marks
the websocket closed on the way out (and stops the transcription
service). -/
def closeOut (st : TwilioLoopState) : TwilioLoopState :=
  { st with websocketClosed := true }

def receiveFromTwilio (openaiOpen : Bool) :
    List (Option TwilioEvent) → TwilioLoopState → TwilioLoopState
  | [], st => closeOut st
  | none :: _, st => closeOut st
  | some e :: rest, st =>
      receiveFromTwilio openaiOpen rest (processTwilioEvent openaiOpen st e)

/-! ### The upstream read loop `send_to_twilio` (main.py lines 764-807)

Events from the OpenAI realtime socket.  `response.content.part` with a
`content` field appends `"AI: <content>"` to `full_transcription`;
`input_audio_buffer.transcript` with a `transcript` field appends
`"User: <transcript>"` — unconditionally, with no trimming, length check
or noise-word filtering; `response.audio.delta` with a truthy delta sends
audio back to Twilio unless the websocket already closed; everything else
only logs.  `none` payloads model a missing (or, for delta, falsy)
field. -/

inductive OpenAIEvent where
  | contentPart (content : Option String)
  | inputTranscript (transcript : Option String)
  | sessionUpdated
  | audioDelta (delta : Option String)
  | other (name : String)
deriving DecidableEq

structure SendLoopState where
  fullTranscription : List String
  sentAudio : List String
  websocketClosed : Bool
deriving DecidableEq

def initSendLoopState : SendLoopState :=
  { fullTranscription := [], sentAudio := [], websocketClosed := false }

def processOpenAIEvent (st : SendLoopState) : OpenAIEvent → SendLoopState
  | .contentPart (some c) =>
      { st with fullTranscription := st.fullTranscription ++ ["AI: " ++ c] }
  | .contentPart none => st
  | .inputTranscript (some t) =>
      { st with fullTranscription := st.fullTranscription ++ ["User: " ++ t] }
  | .inputTranscript none => st
  | .sessionUpdated => st
  | .audioDelta (some d) =>
      if st.websocketClosed then st
      else { st with sentAudio := st.sentAudio ++ [d] }
  | .audioDelta none => st
  | .other _ => st

/-- The short-utterance noise list named by the specification.  It appears
nowhere in the source; it is kept here only to state claim C3 against the
code. -/
def noiseWords : List String := ["you", "bye", "hello", "uh", "um"]

/-! ### Session start (main.py lines 697-704 and 965-980)

After connecting to the realtime API the handler sends exactly one
message, the `session.update` of `send_session_update`, and then enters
the two read loops; no conversation item is injected and no
`response.create` is requested. -/

inductive JsonVal where
  | str (s : String)
  | numTenths (n : Int)
  | arr (xs : List String)
  | obj (fields : List (String × String))
deriving DecidableEq

def SYSTEM_MESSAGE : String :=
  "You are a helpful and bubbly AI assistant who loves to chat about " ++
  "anything the user is interested in and is prepared to offer them facts. " ++
  "You have a penchant for dad jokes, owl jokes, and rickrolling – subtly. " ++
  "Always stay positive, but work in a joke when appropriate."

def VOICE : String := "alloy"

def sessionUpdateSession : List (String × JsonVal) :=
  [("turn_detection", .obj [("type", "server_vad")]),
   ("input_audio_format", .str "g711_ulaw"),
   ("output_audio_format", .str "g711_ulaw"),
   ("voice", .str VOICE),
   ("instructions", .str SYSTEM_MESSAGE),
   ("modalities", .arr ["text", "audio"]),
   ("temperature", .numTenths 8)]

inductive UpstreamMessage where
  | sessionUpdate (session : List (String × JsonVal))
  | inputAudioAppend (audio : String)
  | conversationItemCreate (role : String) (text : String)
  | responseCreate
deriving DecidableEq

def isPromptInjection : UpstreamMessage → Bool
  | .conversationItemCreate _ _ => true
  | .responseCreate => true
  | _ => false

/-- The messages `handle_media_stream` sends to the upstream socket before
entering its read loops: exactly the one `session.update`. -/
def startupMessages : List UpstreamMessage :=
  [.sessionUpdate sessionUpdateSession]

/-! ### Two concurrent sessions and the global transcription service

`transcription_service = TranscriptionService()` (main.py line 559) is a
module-level singleton: every session's `receive_from_twilio` feeds its
audio into it and every session's finalization merges
`transcription_service.buffer` into its own transcript.  The world below
holds two sessions' local `send_to_twilio` states plus the shared
buffer. -/

inductive SessionId where
  | A
  | B
deriving DecidableEq

structure TwoSessionWorld where
  serviceBuffer : List String
  sessA : SendLoopState
  sessB : SendLoopState
deriving DecidableEq

/-- A realtime event handled by one session's own `send_to_twilio` loop:
it touches only that session's local state. -/
def stepSession (w : TwoSessionWorld) (sid : SessionId) (e : OpenAIEvent) :
    TwoSessionWorld :=
  match sid with
  | .A => { w with sessA := processOpenAIEvent w.sessA e }
  | .B => { w with sessB := processOpenAIEvent w.sessB e }

/-- An incremental Whisper transcription of some session's audio
(main.py line 518: `self.buffer.append(f"User: \x7btranscription\x7d")`):
it appends to the shared service buffer, whichever session the audio
came from. -/
def serviceBufferAppend (w : TwoSessionWorld) (t : String) : TwoSessionWorld :=
  { w with serviceBuffer := w.serviceBuffer ++ ["User: " ++ t] }

/-- Session A's finalized transcript (the merge of main.py lines 838-881
with no final continuous re-transcription pending): it reads the shared
service buffer. -/
def finalizeSessionA (w : TwoSessionWorld) : String :=
  finalizeTranscript
    (mergeTranscription w.sessA.fullTranscription w.serviceBuffer)

/-! ### Persistence collaborator (`src/database/supabase_client.py`)

Records are JSON objects with string-or-null values.  The outcome of the
underlying Supabase table call is a parameter: `.ok rows` is
`result.data`, `.error` is a raised exception.  Each operation returns
`Except String (Option Record)`: a `.error` result would mean an
exception escaped to the caller; the `try/except` bodies of the source
never let that happen. -/

abbrev Record := List (String × Option String)

abbrev StoreResult := Except String (List Record)

def create_user (available : Bool) (store : StoreResult) (phone : String) :
    Except String (Option Record) :=
  if available = false then
    .ok (some [("id", some "dummy-user-id"), ("phone_number", some phone)])
  else
    match store with
    | .ok data => .ok data.head?
    | .error _ =>
        .ok (some [("id", some "dummy-user-id"),
          ("phone_number", some phone)])

def get_user_by_phone (available : Bool) (store : StoreResult)
    (phone : String) : Except String (Option Record) :=
  if available = false then
    .ok (some [("id", some "dummy-user-id"), ("phone_number", some phone)])
  else
    match store with
    | .ok data => .ok data.head?
    | .error _ =>
        .ok (some [("id", some "dummy-user-id"),
          ("phone_number", some phone)])

def create_call (available : Bool) (store : StoreResult) (user_id : String)
    (call_type call_sid : Option String) (status : String) :
    Except String (Option Record) :=
  let dummy : Record :=
    [("id", some "dummy-call-id"), ("user_id", some user_id),
     ("call_sid", call_sid), ("call_type", call_type),
     ("status", some status)]
  if available = false then .ok (some dummy)
  else
    match store with
    | .ok data => .ok data.head?
    | .error _ => .ok (some dummy)

def update_call (available : Bool) (store : StoreResult) (call_id : String)
    (status ended_at duration_seconds call_sid : Option String) :
    Except String (Option Record) :=
  if available = false then .ok (some [("id", some call_id)])
  else
    match store with
    | .ok data => .ok data.head?
    | .error _ => .ok (some [("id", some call_id)])

def create_transcription (available : Bool) (store : StoreResult)
    (call_id content : String) : Except String (Option Record) :=
  if available = false then
    .ok (some [("id", some "dummy-transcription-id"),
      ("call_id", some call_id)])
  else
    match store with
    | .ok data => .ok data.head?
    | .error _ =>
        .ok (some [("id", some "dummy-transcription-id"),
          ("call_id", some call_id)])

def get_transcription_by_call_id (available : Bool) (store : StoreResult)
    (call_id : String) : Except String (Option Record) :=
  if available = false then
    .ok (some [("id", some "dummy-transcription-id"),
      ("call_id", some call_id),
      ("content", some "Transcription not available")])
  else
    match store with
    | .ok data => .ok data.head?
    | .error _ =>
        .ok (some [("id", some "dummy-transcription-id"),
          ("call_id", some call_id),
          ("content", some "Error retrieving transcription")])

/-! ### `GET /calls/\x7bcall_id\x7d/transcription` (main.py lines 983-1002)

`if not transcription:` is Python falsiness: both `None` and an empty
dict take the 404 branch; an exception takes the 500 branch. -/

inductive HttpResponse where
  | ok (body : Record)
  | notFound (error : String)
  | serverError (error : String)
deriving DecidableEq

def get_call_transcription (available : Bool) (store : StoreResult)
    (call_id : String) : HttpResponse :=
  match get_transcription_by_call_id available store call_id with
  | .error e => .serverError ("Error retrieving transcription: " ++ e)
  | .ok none => .notFound "Transcription not found for this call"
  | .ok (some record) =>
      if record = [] then .notFound "Transcription not found for this call"
      else .ok record

end CallingBuddy

namespace CallingBuddy

theorem notMem_append_single (x a : String) (seen : List String) :
    decide (x ∉ seen ++ [a]) = (decide (x ∉ seen) && decide (x ≠ a)) := by
  by_cases h1 : x ∈ seen <;> by_cases h2 : x = a <;>
    simp [h1, h2, List.mem_append]

theorem foldl_dedupStep_eq (l : List String) : ∀ seen acc : List String,
    (l.foldl dedupStep (seen, acc)).2 =
      acc ++ firstOccs (l.filter (fun x => decide (x ∉ seen))) := by
  induction l with
  | nil => intro seen acc; simp [firstOccs]
  | cons a as ih =>
    intro seen acc
    by_cases h : a ∈ seen
    · rw [List.foldl_cons]
      have hstep : dedupStep (seen, acc) a = (seen, acc) := by
        simp [dedupStep, h]
      rw [hstep, ih]
      have hfil : (a :: as).filter (fun x => decide (x ∉ seen)) =
          as.filter (fun x => decide (x ∉ seen)) := by
        simp [List.filter_cons, h]
      rw [hfil]
    · rw [List.foldl_cons]
      have hstep : dedupStep (seen, acc) a = (seen ++ [a], acc ++ [a]) := by
        simp [dedupStep, h]
      rw [hstep, ih]
      have hfil : (a :: as).filter (fun x => decide (x ∉ seen)) =
          a :: as.filter (fun x => decide (x ∉ seen)) := by
        simp [List.filter_cons, h]
      rw [hfil, firstOccs]
      have hff : (as.filter (fun x => decide (x ∉ seen))).filter
            (fun b => decide (b ≠ a)) =
          as.filter (fun x => decide (x ∉ seen ++ [a])) := by
        rw [List.filter_filter]
        apply List.filter_congr
        intro x _
        rw [notMem_append_single]
        rw [Bool.and_comm]
      rw [← hff]
      simp [List.append_assoc]

theorem removeDuplicates_eq_firstOccs (l : List String) :
    removeDuplicates l = firstOccs l := by
  unfold removeDuplicates
  rw [foldl_dedupStep_eq]
  simp

theorem foldl_dedupStep_invariant (l : List String) :
    ∀ seen acc : List String, (∀ x, x ∈ seen ↔ x ∈ acc) → acc.Nodup →
      (∀ x, x ∈ (l.foldl dedupStep (seen, acc)).2 ↔ x ∈ acc ∨ x ∈ l) ∧
        (l.foldl dedupStep (seen, acc)).2.Nodup := by
  induction l with
  | nil => intro seen acc hsync hnd; simpa using hnd
  | cons a as ih =>
    intro seen acc hsync hnd
    by_cases h : a ∈ seen
    · have hstep : dedupStep (seen, acc) a = (seen, acc) := by
        simp [dedupStep, h]
      rw [List.foldl_cons, hstep]
      obtain ⟨hmem, hnd'⟩ := ih seen acc hsync hnd
      refine ⟨fun x => ?_, hnd'⟩
      rw [hmem, List.mem_cons]
      have ha : a ∈ acc := (hsync a).mp h
      constructor
      · rintro (hx | hx)
        · exact Or.inl hx
        · exact Or.inr (Or.inr hx)
      · rintro (hx | hx | hx)
        · exact Or.inl hx
        · exact Or.inl (hx ▸ ha)
        · exact Or.inr hx
    · have hstep : dedupStep (seen, acc) a = (seen ++ [a], acc ++ [a]) := by
        simp [dedupStep, h]
      rw [List.foldl_cons, hstep]
      have hsync' : ∀ x, x ∈ seen ++ [a] ↔ x ∈ acc ++ [a] := by
        intro x
        simp [List.mem_append, hsync x]
      have hnotacc : a ∉ acc := fun hc => h ((hsync a).mpr hc)
      have hnd2 : (acc ++ [a]).Nodup := by
        simp [List.nodup_append, hnd, hnotacc]
      obtain ⟨hmem, hnd'⟩ := ih (seen ++ [a]) (acc ++ [a]) hsync' hnd2
      refine ⟨fun x => ?_, hnd'⟩
      rw [hmem]
      simp only [List.mem_append, List.mem_singleton, List.mem_cons]
      tauto

theorem mem_removeDuplicates (l : List String) (x : String) :
    x ∈ removeDuplicates l ↔ x ∈ l := by
  unfold removeDuplicates
  have h := (foldl_dedupStep_invariant l [] []
    (by intro x; simp) List.nodup_nil).1 x
  simpa using h

theorem nodup_removeDuplicates (l : List String) :
    (removeDuplicates l).Nodup :=
  (foldl_dedupStep_invariant l [] [] (by intro x; simp) List.nodup_nil).2

theorem foldl_dedupStep_of_nodup (l : List String) :
    ∀ seen acc : List String, l.Nodup → (∀ x ∈ l, x ∉ seen) →
      (l.foldl dedupStep (seen, acc)).2 = acc ++ l := by
  induction l with
  | nil => intro seen acc _ _; simp
  | cons a as ih =>
    intro seen acc hnd hfresh
    have ha : a ∉ seen := hfresh a (List.mem_cons_self a as)
    have hstep : dedupStep (seen, acc) a = (seen ++ [a], acc ++ [a]) := by
      simp [dedupStep, ha]
    rw [List.foldl_cons, hstep]
    have hnd' : as.Nodup := hnd.of_cons
    have hnotas : a ∉ as := by
      have := List.nodup_cons.mp hnd
      exact this.1
    have hfresh' : ∀ x ∈ as, x ∉ seen ++ [a] := by
      intro x hx
      simp only [List.mem_append, List.mem_singleton]
      rintro (hc | rfl)
      · exact hfresh x (List.mem_cons_of_mem a hx) hc
      · exact hnotas hx
    rw [ih (seen ++ [a]) (acc ++ [a]) hnd' hfresh']
    simp

theorem removeDuplicates_of_nodup {l : List String} (h : l.Nodup) :
    removeDuplicates l = l := by
  unfold removeDuplicates
  rw [foldl_dedupStep_of_nodup l [] [] h (by intro x _; simp)]
  simp

theorem removeDuplicates_idem (l : List String) :
    removeDuplicates (removeDuplicates l) = removeDuplicates l :=
  removeDuplicates_of_nodup (nodup_removeDuplicates l)

/-- Claim C4: the finalization dedup removes all exact duplicates, adjacent
or not, keeping exactly the first occurrence of each distinct line in
order: `removeDuplicates` (the loop of main.py lines 873-879) equals the
first-occurrence subsequence `firstOccs`, its output has no duplicates,
and it has exactly the members of the input. -/
theorem dedup_keeps_first_occurrences (l : List String) :
    removeDuplicates l = firstOccs l ∧ (removeDuplicates l).Nodup ∧
      ∀ x, x ∈ removeDuplicates l ↔ x ∈ l :=
  ⟨removeDuplicates_eq_firstOccs l, nodup_removeDuplicates l,
    mem_removeDuplicates l⟩

/-- Claim C5: transcript finalization is idempotent: deduplicating an
already-deduplicated sequence returns it unchanged, so the
dedup-and-newline-join applied twice yields the output of applying it
once. -/
theorem finalize_idempotent (l : List String) :
    removeDuplicates (removeDuplicates l) = removeDuplicates l ∧
      finalizeTranscript (removeDuplicates l) = finalizeTranscript l := by
  refine ⟨removeDuplicates_idem l, ?_⟩
  unfold finalizeTranscript
  rw [removeDuplicates_idem l]

/-! ### Generic facts about the merge, the join and the tail -/

theorem removeDuplicates_ne_nil {l : List String} (h : l ≠ []) :
    removeDuplicates l ≠ [] := by
  obtain ⟨a, ha⟩ := List.exists_mem_of_ne_nil l h
  exact List.ne_nil_of_mem ((mem_removeDuplicates l a).mpr ha)

theorem userLine_ne_empty (s : String) : "User: " ++ s ≠ "" := by
  intro hc
  have h1 := congrArg String.length hc
  rw [String.length_append] at h1
  have h2 : String.length "User: " = 6 := by decide
  have h3 : String.length "" = 0 := rfl
  rw [h2, h3] at h1
  omega

theorem joinLines_ne_empty (l : List String) (hne : l ≠ [])
    (hx : ∀ x ∈ l, x ≠ "") : joinLines l ≠ "" := by
  match l with
  | [] => exact absurd rfl hne
  | [x] =>
    have hx1 := hx x (by simp)
    simpa [joinLines] using hx1
  | x :: y :: r =>
    intro hc
    have h1 : joinLines (x :: y :: r) = x ++ ("\n" ++ joinLines (y :: r)) :=
      rfl
    rw [h1] at hc
    have h2 := congrArg String.length hc
    rw [String.length_append, String.length_append] at h2
    have h3 : String.length "\n" = 1 := by decide
    have h4 : String.length "" = 0 := rfl
    rw [h3, h4] at h2
    omega

theorem mergeTranscription_ne_nil {fullT buf : List String}
    (h : fullT ≠ [] ∨ buf ≠ []) : mergeTranscription fullT buf ≠ [] := by
  unfold mergeTranscription
  split_ifs with h1 h2
  · rcases h with h | h
    · exact h
    · exact absurd h1 h
  · simp [List.append_eq_nil, h1]
  · simp [List.append_eq_nil, h1]

theorem mem_mergeTranscription {x : String} {fullT buf : List String}
    (h : x ∈ mergeTranscription fullT buf) : x ∈ fullT ∨ x ∈ buf := by
  unfold mergeTranscription at h
  split_ifs at h with h1 h2
  · exact Or.inl h
  · rcases List.mem_append.mp h with h | h
    · exact Or.inr h
    · exact Or.inl h
  · rcases List.mem_append.mp h with h | h
    · exact Or.inl h
    · exact Or.inr h

theorem mem_mergeTranscription_of_mem_buf {x : String}
    {fullT buf : List String} (hx : x ∈ buf) :
    x ∈ mergeTranscription fullT buf := by
  unfold mergeTranscription
  have hb : ¬buf = [] := by
    intro hc
    rw [hc] at hx
    exact absurd hx (List.not_mem_nil x)
  rw [if_neg hb]
  split_ifs with h2
  · exact List.mem_append.mpr (Or.inl hx)
  · exact List.mem_append.mpr (Or.inr hx)

theorem bufferAtMerge_ne_nil {buf : List String} (enough : Bool)
    (contRes : Option String) (h : buf ≠ []) :
    bufferAtMerge buf enough contRes ≠ [] := by
  cases contRes with
  | none =>
    unfold bufferAtMerge bufferAfterFinal
    split_ifs with h1 <;> exact h
  | some t =>
    unfold bufferAtMerge bufferAfterFinal
    dsimp only
    split_ifs with h1 h2
    · simp
    · exact h
    · exact h

theorem mem_bufferAtMerge_ne_empty {x : String} {buf : List String}
    (enough : Bool) (contRes : Option String) (hb : ∀ y ∈ buf, y ≠ "")
    (hx : x ∈ bufferAtMerge buf enough contRes) : x ≠ "" := by
  cases contRes with
  | none =>
    unfold bufferAtMerge bufferAfterFinal at hx
    split_ifs at hx <;> exact hb x hx
  | some t =>
    unfold bufferAtMerge bufferAfterFinal at hx
    dsimp only at hx
    split_ifs at hx with h1 h2
    · rw [List.mem_singleton] at hx
      rw [hx]
      exact userLine_ne_empty t.trim
    · exact hb x hx
    · exact hb x hx

/-! ### Claim C1: finalization at session teardown -/

/-- Counterexample to claim C1 as stated: a session whose downstream loop
ends cleanly with nothing accumulated (`full_transcription` and the
service buffer both empty) skips the dedup/join/persist block of
`handle_media_stream` entirely — finalization runs zero times, not
"exactly once ... never zero times". -/
theorem relay_zero_finalize_on_empty_session :
    finalizeCount (handleMediaStreamTail .downstream .clean [] [] false none
      true (some "call-1") "20240101_000000") = 0 := by decide

/-- Claim C1 (amended): whichever loop exits first and however it exits,
the relay cancels the pending loop first, and whenever any transcript
content was accumulated the dedup/join finalization runs exactly once —
never twice; with nothing accumulated it is skipped. -/
theorem relay_finalize_exactly_once_when_content (firstExited : WhichLoop)
    (cause : LoopExitCause) (fullT buf : List String) (enough : Bool)
    (contRes : Option String) (avail : Bool) (cid : Option String)
    (ts : String) (h : fullT ≠ [] ∨ buf ≠ []) :
    (handleMediaStreamTail firstExited cause fullT buf enough contRes avail
        cid ts).head? = some TailAction.cancelPending ∧
      finalizeCount (handleMediaStreamTail firstExited cause fullT buf enough
        contRes avail cid ts) = 1 := by
  cases avail <;> cases cid <;>
    simp [handleMediaStreamTail, h, finalizeCount, isFinalizeStep]

/-- Witness for `relay_finalize_exactly_once_when_content` at a concrete
session. -/
theorem relay_finalize_exactly_once_when_content_witness :
    ((["AI: hi"] : List String) ≠ [] ∨ ([] : List String) ≠ []) ∧
      ((handleMediaStreamTail .downstream .disconnect ["AI: hi"] [] false
          none false none "20240101_000000").head? =
          some TailAction.cancelPending ∧
        finalizeCount (handleMediaStreamTail .downstream .disconnect
          ["AI: hi"] [] false none false none "20240101_000000") = 1) :=
  ⟨Or.inl (by decide),
    relay_finalize_exactly_once_when_content .downstream .disconnect
      ["AI: hi"] [] false none false none "20240101_000000"
      (Or.inl (by decide))⟩

/-! ### Claim C2: malformed downstream messages -/

/-- Counterexample to claim C2 as stated: a malformed (non-JSON) frame
followed by a valid `media` frame.  The claim predicts the media frame is
still forwarded (`forwarded = ["audio-frame-2"]`); in the code
`json.loads` raises, the exception is caught outside the `async for`, and
the loop exits — nothing is forwarded and the socket is marked closed. -/
theorem malformed_message_drops_subsequent_media :
    (receiveFromTwilio true [none, some (.media "audio-frame-2")]
        initTwilioLoopState).forwarded = [] ∧
      (receiveFromTwilio true [none, some (.media "audio-frame-2")]
        initTwilioLoopState).websocketClosed = true := by decide

/-- Claim C2 (amended): the first malformed frame terminates the
downstream read loop.  Frames before it are processed normally, frames
after it are never processed, and the loop unwinds through its `finally`
block (websocket marked closed); the exception does not escape the
session. -/
theorem malformed_twilio_message_terminates_loop (openaiOpen : Bool)
    (valid : List TwilioEvent) (rest : List (Option TwilioEvent))
    (st : TwilioLoopState) :
    receiveFromTwilio openaiOpen (valid.map some ++ none :: rest) st =
      closeOut (valid.foldl (processTwilioEvent openaiOpen) st) ∧
    (receiveFromTwilio openaiOpen (valid.map some ++ none :: rest)
      st).websocketClosed = true := by
  have key : ∀ st : TwilioLoopState,
      receiveFromTwilio openaiOpen (valid.map some ++ none :: rest) st =
        closeOut (valid.foldl (processTwilioEvent openaiOpen) st) := by
    induction valid with
    | nil => intro st; rfl
    | cons e es ih =>
      intro st
      rw [List.map_cons, List.cons_append, List.foldl_cons]
      exact ih (processTwilioEvent openaiOpen st e)
  exact ⟨key st, by rw [key st]; rfl⟩

/-! ### Claim C3: short-utterance noise filtering -/

/-- Counterexample to claim C3 as stated: the finalized user-speech
transcript `"um"` is in the claimed noise list, yet `send_to_twilio`
appends `"User: um"` to `full_transcription` — no trimming, length check
or noise filtering exists in the code. -/
theorem noise_word_um_appends_user_line :
    (processOpenAIEvent initSendLoopState
        (.inputTranscript (some "um"))).fullTranscription = ["User: um"] ∧
      "um" ∈ noiseWords := by decide

/-- Claim C3 (amended): every `input_audio_buffer.transcript` event with a
`transcript` field appends `"User: <text>"` to the session transcript
unconditionally; the length-3/noise-word filter named by the
specification is not performed. -/
theorem user_transcript_always_appended (st : SendLoopState) (t : String) :
    (processOpenAIEvent st (.inputTranscript (some t))).fullTranscription =
      st.fullTranscription ++ ["User: " ++ t] := rfl

/-! ### Claim C6: the local fallback artifact -/

/-- Counterexample to claim C6 as stated: two sessions with different
resolved call identifiers but the same timestamp write their fallback file
under the identical name `transcription_20240101_000000.txt` — the name is
derived from the timestamp alone, not from the call identifier. -/
theorem fallback_filename_ignores_call_identifier :
    (handleMediaStreamTail .downstream .clean ["AI: hi"] [] false none true
        (some "call-A") "20240101_000000").filter isWriteFallback =
      (handleMediaStreamTail .downstream .clean ["AI: hi"] [] false none true
        (some "call-B") "20240101_000000").filter isWriteFallback ∧
    (handleMediaStreamTail .downstream .clean ["AI: hi"] [] false none true
        (some "call-A") "20240101_000000").filter isWriteFallback =
      [.writeFallback "transcription_20240101_000000.txt" "AI: hi"] := by
  decide

/-- Claim C6 (amended): on every finalize with accumulated content the
trace contains exactly one fallback-file write; its name is derived
deterministically from the timestamp alone (`transcription_<ts>.txt`),
its content is the joined deduplicated transcript, and — for every value
of `supabaseAvail`, in particular with the persistence layer
unreachable — that content is non-empty whenever the accumulated lines
are non-empty. -/
theorem fallback_file_always_written (firstExited : WhichLoop)
    (cause : LoopExitCause) (fullT buf : List String) (enough : Bool)
    (contRes : Option String) (avail : Bool) (cid : Option String)
    (ts : String) (h : fullT ≠ [] ∨ buf ≠ [])
    (hne : ∀ x ∈ fullT ++ buf, x ≠ "") :
    (handleMediaStreamTail firstExited cause fullT buf enough contRes avail
        cid ts).filter isWriteFallback =
      [TailAction.writeFallback (fallbackFilename ts)
        (finalizeTranscript
          (mergeTranscription fullT (bufferAtMerge buf enough contRes)))] ∧
    finalizeTranscript
      (mergeTranscription fullT (bufferAtMerge buf enough contRes)) ≠ "" := by
  constructor
  · cases avail <;> cases cid <;>
      simp [handleMediaStreamTail, h, isWriteFallback, bufferAtMerge]
  · have hfull : ∀ x ∈ fullT, x ≠ "" := fun x hx =>
      hne x (List.mem_append.mpr (Or.inl hx))
    have hbuf : ∀ x ∈ buf, x ≠ "" := fun x hx =>
      hne x (List.mem_append.mpr (Or.inr hx))
    have hmerge_ne : mergeTranscription fullT
        (bufferAtMerge buf enough contRes) ≠ [] := by
      apply mergeTranscription_ne_nil
      rcases h with h | h
      · exact Or.inl h
      · exact Or.inr (bufferAtMerge_ne_nil enough contRes h)
    unfold finalizeTranscript
    apply joinLines_ne_empty
    · exact removeDuplicates_ne_nil hmerge_ne
    · intro x hx
      have hx2 := (mem_removeDuplicates _ x).mp hx
      rcases mem_mergeTranscription hx2 with h3 | h3
      · exact hfull x h3
      · exact mem_bufferAtMerge_ne_empty enough contRes hbuf h3

/-- Witness for `fallback_file_always_written` at a concrete session with
the persistence layer unavailable. -/
theorem fallback_file_always_written_witness :
    ((["AI: hello"] : List String) ≠ [] ∨ ([] : List String) ≠ []) ∧
    (∀ x ∈ (["AI: hello"] : List String) ++ [], x ≠ "") ∧
    ((handleMediaStreamTail .downstream .disconnect ["AI: hello"] [] false
        none false none "20250101_120000").filter isWriteFallback =
      [TailAction.writeFallback (fallbackFilename "20250101_120000")
        (finalizeTranscript
          (mergeTranscription ["AI: hello"] (bufferAtMerge [] false none)))] ∧
    finalizeTranscript
      (mergeTranscription ["AI: hello"] (bufferAtMerge [] false none)) ≠ "") :=
  ⟨Or.inl (by decide), by decide,
    fallback_file_always_written .downstream .disconnect ["AI: hello"] []
      false none false none "20250101_120000" (Or.inl (by decide))
      (by decide)⟩

/-! ### Claim C7: the persistence collaborator never raises -/

/-- Claim C7: each of the six persistence operations returns a value for
every input and every store outcome — a raised store exception never
escapes (`Except.error` is unreachable) — and when the backing store is
unavailable each returns its documented placeholder record. -/
theorem persistence_ops_never_raise (avail : Bool) (store : StoreResult)
    (phone uid cid content status : String)
    (ctype csid cstatus ea ds : Option String) :
    (∃ r, create_user avail store phone = .ok r) ∧
    (∃ r, get_user_by_phone avail store phone = .ok r) ∧
    (∃ r, create_call avail store uid ctype csid status = .ok r) ∧
    (∃ r, update_call avail store cid cstatus ea ds csid = .ok r) ∧
    (∃ r, create_transcription avail store cid content = .ok r) ∧
    (∃ r, get_transcription_by_call_id avail store cid = .ok r) ∧
    create_user false store phone =
      .ok (some [("id", some "dummy-user-id"),
        ("phone_number", some phone)]) ∧
    get_user_by_phone false store phone =
      .ok (some [("id", some "dummy-user-id"),
        ("phone_number", some phone)]) ∧
    create_call false store uid ctype csid status =
      .ok (some [("id", some "dummy-call-id"), ("user_id", some uid),
        ("call_sid", csid), ("call_type", ctype),
        ("status", some status)]) ∧
    update_call false store cid cstatus ea ds csid =
      .ok (some [("id", some cid)]) ∧
    create_transcription false store cid content =
      .ok (some [("id", some "dummy-transcription-id"),
        ("call_id", some cid)]) ∧
    get_transcription_by_call_id false store cid =
      .ok (some [("id", some "dummy-transcription-id"),
        ("call_id", some cid),
        ("content", some "Transcription not available")]) := by
  refine ⟨?_, ?_, ?_, ?_, ?_, ?_, rfl, rfl, rfl, rfl, rfl, rfl⟩ <;>
    cases avail <;> cases store <;> exact ⟨_, rfl⟩

/-! ### Claim C8: the startup configuration message -/

/-- Counterexample to claim C8 as stated: the `session.update` sent at
session start carries no `input_audio_transcription` field (input
transcription is not enabled), and the startup sequence contains no
conversation-item injection or synthesis request — no scripted prompt
exists in the code. -/
theorem session_update_lacks_input_transcription :
    sessionUpdateSession.lookup "input_audio_transcription" = none ∧
      startupMessages.countP isPromptInjection = 0 := by decide

/-- Claim C8 (amended): at session start the relay sends exactly one
configuration message, establishing g711_ulaw audio in both directions,
the `alloy` voice, the system instructions and server-VAD turn detection;
it does not enable input transcription, and no scripted prompt follows. -/
theorem startup_config_message_contents :
    startupMessages = [UpstreamMessage.sessionUpdate sessionUpdateSession] ∧
    sessionUpdateSession.lookup "input_audio_format" =
      some (.str "g711_ulaw") ∧
    sessionUpdateSession.lookup "output_audio_format" =
      some (.str "g711_ulaw") ∧
    sessionUpdateSession.lookup "voice" = some (.str VOICE) ∧
    sessionUpdateSession.lookup "instructions" = some (.str SYSTEM_MESSAGE) ∧
    sessionUpdateSession.lookup "turn_detection" =
      some (.obj [("type", "server_vad")]) ∧
    sessionUpdateSession.lookup "input_audio_transcription" = none := by
  decide

/-! ### Claim C9: cross-session shared state -/

/-- Counterexample to claim C9 as stated: an audio transcription of
session B appends to the process-global `transcription_service.buffer`
without touching session A's local state, yet session A's finalized
transcript changes — the transcript assembled for one session is affected
by another session's events through shared mutable state beyond the
Session Registry. -/
theorem session_transcript_depends_on_other_session :
    (serviceBufferAppend ⟨[], ⟨["AI: hi"], [], false⟩, ⟨[], [], false⟩⟩
        "from caller B").sessA =
      (⟨[], ⟨["AI: hi"], [], false⟩, ⟨[], [], false⟩⟩ :
        TwoSessionWorld).sessA ∧
    finalizeSessionA (serviceBufferAppend
        ⟨[], ⟨["AI: hi"], [], false⟩, ⟨[], [], false⟩⟩ "from caller B") ≠
      finalizeSessionA ⟨[], ⟨["AI: hi"], [], false⟩, ⟨[], [], false⟩⟩ := by
  decide

/-- Claim C9 (amended): each session's realtime read loop mutates only
its own local state, but the transcription service is a module-level
singleton shared by all sessions: a buffer append caused by either
session leaves both sessions' local states untouched and still lands in
session A's finalized (merged, deduplicated) transcript. -/
theorem service_buffer_shared_across_sessions (w : TwoSessionWorld)
    (t : String) :
    (serviceBufferAppend w t).sessA = w.sessA ∧
    (serviceBufferAppend w t).sessB = w.sessB ∧
    (∀ e, (stepSession w SessionId.B e).sessA = w.sessA) ∧
    ("User: " ++ t) ∈
      removeDuplicates
        (mergeTranscription w.sessA.fullTranscription
          (serviceBufferAppend w t).serviceBuffer) := by
  refine ⟨rfl, rfl, fun e => rfl, ?_⟩
  rw [mem_removeDuplicates]
  apply mem_mergeTranscription_of_mem_buf
  simp [serviceBufferAppend]

/-! ### Claim C10: the degraded transcription endpoint -/

/-- Claim C10: with the backing store unavailable,
`GET /calls/.../transcription` answers 200 for every call id, carrying
the placeholder record whose content is "Transcription not available";
the 404 branch is unreachable in that mode because the lookup never
returns a falsy result. -/
theorem degraded_transcription_endpoint_returns_200 (store : StoreResult)
    (call_id : String) :
    get_call_transcription false store call_id =
      .ok [("id", some "dummy-transcription-id"),
        ("call_id", some call_id),
        ("content", some "Transcription not available")] := rfl

end CallingBuddy
